import Mathlib

/-!
Verification of the CSV import pipeline of the rybbit analytics platform.

Client side (src/client/src/lib/import/csv-worker-manager.ts and
src/client/src/workers/csv-import.worker.ts): a streaming CSV parser maps
raw rows to canonical Umami events, filters them by an allowed date range,
accumulates them into batches of 5000 and uploads each batch to the server.

Server side (batch-import handler, src/unnamed/part_011): validates the
request, checks the import-session state machine, applies a per-month quota
tracker, transforms admitted events and inserts them into the event store.

Machine integers do not occur on the modelled paths; counters are Nat.
-/

namespace Rybbit

/-! ## JavaScript value coercion

CSV cells arrive as strings; absent columns are `undefined`.  The mapper in
`handleParsedRow` computes `String(rawEvent.field || "")`: the JS `||`
returns the right operand when the left is falsy (here: `undefined` or the
empty string), and `String` on a string is the identity. -/

/-- A loosely typed JavaScript value as produced by the CSV parser for one
cell: either a string or `undefined` (column absent). -/
inductive JSValue where
  | undef : JSValue
  | str : String → JSValue
deriving DecidableEq, Repr

/-- JS truthiness for the values that occur here: `undefined` and `""` are
falsy, every other string is truthy. -/
def JSValue.truthy : JSValue → Bool
  | .undef => false
  | .str s => s ≠ ""

/-- `String(v || "")` from the source: if `v` is truthy keep it, otherwise
use `""`; then coerce to string (identity on strings). -/
def coerceField (v : JSValue) : String :=
  if v.truthy then
    match v with
    | .undef => ""
    | .str s => s
  else ""

/-! ## Event records -/

/-- The canonical event shape (`UmamiEvent` in
src/client/src/lib/import/types.ts): twenty string fields. -/
structure UmamiEvent where
  session_id : String
  hostname : String
  browser : String
  os : String
  device : String
  screen : String
  language : String
  country : String
  region : String
  city : String
  url_path : String
  url_query : String
  referrer_path : String
  referrer_query : String
  referrer_domain : String
  page_title : String
  event_type : String
  event_name : String
  distinct_id : String
  created_at : String
deriving DecidableEq, Repr, Inhabited

/-- A raw parsed CSV row after header renaming: each recognized field is a
loosely typed JS value (string or undefined). -/
structure RawRecord where
  session_id : JSValue
  hostname : JSValue
  browser : JSValue
  os : JSValue
  device : JSValue
  screen : JSValue
  language : JSValue
  country : JSValue
  region : JSValue
  city : JSValue
  url_path : JSValue
  url_query : JSValue
  referrer_path : JSValue
  referrer_query : JSValue
  referrer_domain : JSValue
  page_title : JSValue
  event_type : JSValue
  event_name : JSValue
  distinct_id : JSValue
  created_at : JSValue
deriving DecidableEq, Repr

/-- The event mapper from `handleParsedRow`: every recognized field is
coerced with `String(rawEvent.field || "")`. -/
def mapRawEvent (r : RawRecord) : UmamiEvent where
  session_id := coerceField r.session_id
  hostname := coerceField r.hostname
  browser := coerceField r.browser
  os := coerceField r.os
  device := coerceField r.device
  screen := coerceField r.screen
  language := coerceField r.language
  country := coerceField r.country
  region := coerceField r.region
  city := coerceField r.city
  url_path := coerceField r.url_path
  url_query := coerceField r.url_query
  referrer_path := coerceField r.referrer_path
  referrer_query := coerceField r.referrer_query
  referrer_domain := coerceField r.referrer_domain
  page_title := coerceField r.page_title
  event_type := coerceField r.event_type
  event_name := coerceField r.event_name
  distinct_id := coerceField r.distinct_id
  created_at := coerceField r.created_at

/-- The twenty recognized fields, for stating field-wise properties. -/
inductive UField where
  | session_id | hostname | browser | os | device | screen | language
  | country | region | city | url_path | url_query | referrer_path
  | referrer_query | referrer_domain | page_title | event_type
  | event_name | distinct_id | created_at
deriving DecidableEq, Repr

/-- Project a raw record at a recognized field. -/
def RawRecord.get (r : RawRecord) : UField → JSValue
  | .session_id => r.session_id
  | .hostname => r.hostname
  | .browser => r.browser
  | .os => r.os
  | .device => r.device
  | .screen => r.screen
  | .language => r.language
  | .country => r.country
  | .region => r.region
  | .city => r.city
  | .url_path => r.url_path
  | .url_query => r.url_query
  | .referrer_path => r.referrer_path
  | .referrer_query => r.referrer_query
  | .referrer_domain => r.referrer_domain
  | .page_title => r.page_title
  | .event_type => r.event_type
  | .event_name => r.event_name
  | .distinct_id => r.distinct_id
  | .created_at => r.created_at

/-- Project a canonical event at a recognized field. -/
def UmamiEvent.get (e : UmamiEvent) : UField → String
  | .session_id => e.session_id
  | .hostname => e.hostname
  | .browser => e.browser
  | .os => e.os
  | .device => e.device
  | .screen => e.screen
  | .language => e.language
  | .country => e.country
  | .region => e.region
  | .city => e.city
  | .url_path => e.url_path
  | .url_query => e.url_query
  | .referrer_path => e.referrer_path
  | .referrer_query => e.referrer_query
  | .referrer_domain => e.referrer_domain
  | .page_title => e.page_title
  | .event_type => e.event_type
  | .event_name => e.event_name
  | .distinct_id => e.distinct_id
  | .created_at => e.created_at

/-! ## Dates

`DateTime.fromFormat(s, "yyyy-MM-dd HH:mm:ss", { zone: "utc" })` in luxon
matches the whole string against the fixed pattern and validates the result
as a real calendar instant; otherwise the value is invalid.  For valid UTC
instants, luxon's comparison order coincides with lexicographic order on
(year, month, day, hour, minute, second, millisecond). -/

/-- A UTC instant at millisecond precision. -/
structure UTCTime where
  year : Nat
  month : Nat
  day : Nat
  hour : Nat
  minute : Nat
  second : Nat
  millis : Nat
deriving DecidableEq, Repr

/-- Encode a valid instant as a single Nat so that lexicographic order on
the fields (within their calendar bounds) is the numeric order. -/
def UTCTime.key (t : UTCTime) : Nat :=
  ((((((t.year * 16 + t.month) * 32 + t.day) * 32 + t.hour) * 64 + t.minute)
      * 64 + t.second) * 1024 + t.millis)

/-- The `<` comparison luxon performs on DateTime values (valid instants). -/
def UTCTime.ltb (a b : UTCTime) : Bool := a.key < b.key

/-- Numeric value of an ASCII digit. -/
def digitVal (c : Char) : Option Nat :=
  if c.isDigit then some (c.toNat - 48) else none

def isLeapYear (y : Nat) : Bool :=
  (y % 4 = 0 && y % 100 ≠ 0) || y % 400 = 0

def daysInMonth (y mo : Nat) : Nat :=
  if mo = 2 then (if isLeapYear y then 29 else 28)
  else if mo = 4 || mo = 6 || mo = 9 || mo = 11 then 30
  else 31

/-- Parse `yyyy-MM-dd HH:mm:ss` (luxon fromFormat, zone utc): exactly 19
characters, fixed separators, and a valid calendar instant. -/
def parseTimestamp (s : String) : Option UTCTime :=
  match s.data with
  | [y1, y2, y3, y4, g1, b1, b2, g2, a1, a2, g3, h1, h2, g4, n1, n2, g5,
      c1, c2] =>
    if g1 = '-' && g2 = '-' && g3 = ' ' && g4 = ':' && g5 = ':' then do
      let yv := (← digitVal y1) * 1000 + (← digitVal y2) * 100 +
        (← digitVal y3) * 10 + (← digitVal y4)
      let mov := (← digitVal b1) * 10 + (← digitVal b2)
      let dv := (← digitVal a1) * 10 + (← digitVal a2)
      let hv := (← digitVal h1) * 10 + (← digitVal h2)
      let miv := (← digitVal n1) * 10 + (← digitVal n2)
      let sv := (← digitVal c1) * 10 + (← digitVal c2)
      if 1 ≤ mov && mov ≤ 12 && 1 ≤ dv && dv ≤ daysInMonth yv mov &&
          hv ≤ 23 && miv ≤ 59 && sv ≤ 59 then
        some ⟨yv, mov, dv, hv, miv, sv, 0⟩
      else none
    else none
  | _ => none

/-- Parse `yyyy-MM-dd` (luxon fromFormat, zone utc): exactly 10 characters,
fixed separators, and a valid calendar date (at midnight). -/
def parseDateOnly (s : String) : Option UTCTime :=
  match s.data with
  | [y1, y2, y3, y4, g1, b1, b2, g2, a1, a2] =>
    if g1 = '-' && g2 = '-' then do
      let yv := (← digitVal y1) * 1000 + (← digitVal y2) * 100 +
        (← digitVal y3) * 10 + (← digitVal y4)
      let mov := (← digitVal b1) * 10 + (← digitVal b2)
      let dv := (← digitVal a1) * 10 + (← digitVal a2)
      if 1 ≤ mov && mov ≤ 12 && 1 ≤ dv && dv ≤ daysInMonth yv mov then
        some ⟨yv, mov, dv, 0, 0, 0, 0⟩
      else none
    else none
  | _ => none

/-- `startOf("day")`: truncate to midnight. -/
def UTCTime.startOfDay (t : UTCTime) : UTCTime :=
  ⟨t.year, t.month, t.day, 0, 0, 0, 0⟩

/-- `endOf("day")`: last millisecond of the day. -/
def UTCTime.endOfDay (t : UTCTime) : UTCTime :=
  ⟨t.year, t.month, t.day, 23, 59, 59, 999⟩

/-- The filter configuration built in `startImport` / `createDateRangeFilter`:
parse both bounds with format `yyyy-MM-dd`, take the earliest at start of
day and the latest at end of day; an invalid bound is an error (none). -/
def createDateRangeFilter (earliestStr latestStr : String) :
    Option (UTCTime × UTCTime) := do
  let e ← parseDateOnly earliestStr
  let l ← parseDateOnly latestStr
  some (e.startOfDay, l.endOfDay)

/-- `isDateInRange` from the source: parse the timestamp in format
`yyyy-MM-dd HH:mm:ss`; invalid timestamps are rejected; otherwise reject
exactly when the instant is before the earliest or after the latest bound. -/
def isDateInRange (earliest latest : UTCTime) (dateStr : String) : Bool :=
  match parseTimestamp dateStr with
  | none => false
  | some createdAt =>
    if createdAt.ltb earliest then false
    else if latest.ltb createdAt then false
    else true

/-- The whole filter as configured from the two `yyyy-MM-dd` bound strings:
none when a bound is invalid (the import errors out before filtering). -/
def isDateInRangeCfg (earliestStr latestStr dateStr : String) : Option Bool :=
  (createDateRangeFilter earliestStr latestStr).map
    (fun p => isDateInRange p.1 p.2 dateStr)

/-! ## Client upload coordinator (csv-worker-manager.ts)

`CSVWorkerManager` is driven by asynchronous callbacks: the PapaParse
`step` callback per parsed row, the `complete` callback at end of input,
and the resolution of each `fetch`.  `uploadBatch` is `async` and is
invoked without `await`: its body up to the `await fetch` runs
synchronously in the caller, and the code after the `await` runs when the
response arrives.  The model makes this explicit: a state plus three kinds
of events (`row`, `parseDone`, `response`), where `response` resumes the
oldest still-pending fetch.  `pending` holds the requests whose fetch has
been started but whose response has not yet been processed — the requests
in flight. -/

def BATCH_SIZE : Nat := 5000

/-- Filter bounds held by the manager after `startImport` validated them. -/
structure FilterCfg where
  earliest : UTCTime
  latest : UTCTime
deriving DecidableEq, Repr

/-- Coordinator state.  `pending` are the uploads in flight (FIFO);
`sent` records every upload request ever started, in order; `completions`
records every `onComplete(success, message)` invocation. -/
structure CState where
  aborted : Bool
  uploadInProgress : Bool
  parsingComplete : Bool
  quotaExceeded : Bool
  currentBatchRev : List UmamiEvent
  pending : List (List UmamiEvent × Bool)
  sent : List (List UmamiEvent × Bool)
  completions : List (Bool × String)
deriving DecidableEq, Repr

/-- State right after `startImport` reset the fields. -/
def initCState : CState :=
  ⟨false, false, false, false, [], [], [], []⟩

/-- `currentBatch.push(e)` in JS appends at the tail; the model stores the
batch reversed (cons) and reverses on emission. -/
def CState.batchList (st : CState) : List UmamiEvent :=
  st.currentBatchRev.reverse

/-- The synchronous prefix of `uploadBatch` (up to the `await fetch`):
skip if quota already exceeded, skip empty non-final batches, otherwise
mark an upload in progress and issue the request. -/
def uploadBatchStart (st : CState) (events : List UmamiEvent)
    (isLastBatch : Bool) : CState :=
  if st.quotaExceeded then st
  else if events.isEmpty && !isLastBatch then st
  else
    { st with
      uploadInProgress := true
      pending := st.pending ++ [(events, isLastBatch)]
      sent := st.sent ++ [(events, isLastBatch)] }

/-- `sendBatch`: flush the accumulated batch; an empty batch is only sent
when it is the final one (needed for finalization). -/
def sendBatchC (st : CState) (isLastBatch : Bool) : CState :=
  if st.currentBatchRev.isEmpty then
    if isLastBatch then uploadBatchStart st [] true else st
  else
    uploadBatchStart { st with currentBatchRev := [] } st.batchList isLastBatch

/-- `checkCompletion`: declare success only when parsing finished, no
upload is in flight, and quota was not exceeded. -/
def checkCompletionC (st : CState) : CState :=
  if st.parsingComplete && !st.uploadInProgress && !st.quotaExceeded then
    { st with
      completions := st.completions ++ [(true, "Import completed successfully")] }
  else st

/-- `handleParsedRow`: map, drop on missing `created_at`, drop on date
filter, accumulate, flush at `BATCH_SIZE`. -/
def handleParsedRowC (cfg : FilterCfg) (st : CState) (row : RawRecord) :
    CState :=
  let e := mapRawEvent row
  if e.created_at = "" then st
  else if !(isDateInRange cfg.earliest cfg.latest e.created_at) then st
  else
    let st1 := { st with currentBatchRev := e :: st.currentBatchRev }
    if BATCH_SIZE ≤ st1.currentBatchRev.length then sendBatchC st1 false
    else st1

/-- Whether `handleParsedRow` accepts a row into the batch. -/
def rowAccepted (cfg : FilterCfg) (row : RawRecord) : Bool :=
  (mapRawEvent row).created_at ≠ "" &&
    isDateInRange cfg.earliest cfg.latest (mapRawEvent row).created_at

/-- Outcome of one `fetch` as the coordinator distinguishes them:
a non-ok HTTP response (the thrown error's text), an ok response whose
body carries a truthy `quotaExceeded`, or an ordinary ok response. -/
inductive FetchResult where
  | httpError (errText : String)
  | okQuota (message : Option String)
  | okNormal
deriving DecidableEq, Repr

/-- JS `m || d` on an optional string: absent and `""` are falsy. -/
def jsOrElse (m : Option String) (d : String) : String :=
  match m with
  | none => d
  | some s => if s = "" then d else s

/-- The continuation of `uploadBatch` after the `await fetch` resolves, for
the oldest pending request: on a non-ok response, report failure and
terminate (the `finally` clears `uploadInProgress`, the `return` skips
`checkCompletion`); on `quotaExceeded`, flag soft-stop, abort parsing and
report success; otherwise clear `uploadInProgress` and check completion. -/
def finishUpload (st : CState) (r : FetchResult) : CState :=
  match st.pending with
  | [] => st
  | _ :: rest =>
    let st0 := { st with pending := rest }
    match r with
    | .httpError e =>
      { st0 with
        completions := st0.completions ++ [(false, "Upload failed: " ++ e)]
        aborted := true
        uploadInProgress := false }
    | .okQuota m =>
      { st0 with
        quotaExceeded := true
        aborted := true
        completions := st0.completions ++
          [(true, jsOrElse m "Import completed with quota limits")]
        uploadInProgress := false }
    | .okNormal => checkCompletionC { st0 with uploadInProgress := false }

/-- The tail of `handleParseComplete` after the final `sendBatch(true)`:
check completion only when no upload is in flight. -/
def parseDoneFollowup (st1 : CState) : CState :=
  if !st1.uploadInProgress then checkCompletionC st1 else st1

/-- The asynchronous events that drive the coordinator. -/
inductive MEvent where
  | row (r : RawRecord)
  | parseDone
  | response (r : FetchResult)
deriving DecidableEq, Repr

/-- One event: the `step` callback ignores rows once aborted or
quota-stopped; the `complete` callback flushes the final batch and, if no
upload is in flight, checks completion; a response resumes `uploadBatch`. -/
def stepEvent (cfg : FilterCfg) (st : CState) (ev : MEvent) : CState :=
  match ev with
  | .row r => if st.aborted || st.quotaExceeded then st
              else handleParsedRowC cfg st r
  | .parseDone =>
    if st.aborted then st
    else parseDoneFollowup (sendBatchC { st with parsingComplete := true } true)
  | .response r => finishUpload st r

/-- Run the coordinator over a sequence of events. -/
def runEvents (cfg : FilterCfg) (st : CState) (evs : List MEvent) : CState :=
  evs.foldl (stepEvent cfg) st

theorem runEvents_append (cfg : FilterCfg) (st : CState)
    (l1 l2 : List MEvent) :
    runEvents cfg st (l1 ++ l2) = runEvents cfg (runEvents cfg st l1) l2 := by
  unfold runEvents
  rw [List.foldl_append]

theorem runEvents_single (cfg : FilterCfg) (st : CState) (e : MEvent) :
    runEvents cfg st [e] = stepEvent cfg st e := rfl

/-! ## Server: import sessions and the batch ingestion handler

The handler itself (`batchImportEvents`, src/unnamed/part_011) is embedded
branch by branch.  Its collaborators — the import status manager, the
quota tracker, the Umami mapper's transform and the zod per-event schema —
live in server files not present in the sources; they are modelled from
the spec where marked. -/

/-- Lifecycle status of an import session. -/
inductive ImportStatusV where
  | pending | processing | completed | failed
deriving DecidableEq, Repr

/-- The durable ImportSession row. -/
structure ImportSession where
  importId : String
  siteId : Int
  status : ImportStatusV
  platform : Option String
  importedEvents : Nat
  errorMessage : Option String
deriving DecidableEq, Repr

/-- Modelled from the spec: one month of the QuotaWindow — a calendar month
of the trailing window together with its remaining capacity (capacity minus
used count). -/
structure MonthQuota where
  year : Nat
  month : Nat
  remaining : Nat
deriving DecidableEq, Repr

/-- All durable server state the handler touches: the session rows, the
sites table (siteId to organization), each organization's quota window, and
the event store. -/
structure ServerState where
  sessions : List ImportSession
  siteOrgs : List (Int × String)
  orgQuota : List (String × List MonthQuota)
  store : List (String × String × UmamiEvent)
deriving DecidableEq, Repr

/-- `SELECT ... WHERE importId = id LIMIT 1` over the session rows. -/
def findSession (l : List ImportSession) (id : String) :
    Option ImportSession :=
  match l with
  | [] => none
  | s :: rest => if s.importId = id then some s else findSession rest id

/-- `UPDATE ... WHERE importId = id` over the session rows. -/
def updateSessions (l : List ImportSession) (id : String)
    (f : ImportSession → ImportSession) : List ImportSession :=
  match l with
  | [] => []
  | s :: rest =>
    (if s.importId = id then f s else s) :: updateSessions rest id f

/-- Modelled from the spec: `getImportById` of the import status manager —
look up the session row by its id. -/
def getImportById (st : ServerState) (id : String) : Option ImportSession :=
  findSession st.sessions id

/-- Modelled from the spec: `updateImportStatus(importId, status, message?)`
— set the session's status, and its error/informational message when one is
supplied. -/
def updateImportStatus (st : ServerState) (id : String)
    (status : ImportStatusV) (msg : Option String) : ServerState :=
  { st with
    sessions := updateSessions st.sessions id (fun s =>
      { s with status := status,
               errorMessage := match msg with
                 | none => s.errorMessage
                 | some m => some m }) }

/-- The direct `db.update(importStatus).set({ platform })` in the handler:
persist the detected platform on the session row. -/
def setPlatform (st : ServerState) (id : String) (p : String) : ServerState :=
  { st with
    sessions := updateSessions st.sessions id
      (fun s => { s with platform := some p }) }

/-- Modelled from the spec: `updateImportProgress(importId, count)` — the
monotonically increasing imported-event counter is incremented by the
accepted batch's size. -/
def updateImportProgress (st : ServerState) (id : String) (n : Nat) :
    ServerState :=
  { st with
    sessions := updateSessions st.sessions id (fun s =>
      { s with importedEvents := s.importedEvents + n }) }

/-- Modelled from the spec: `UmamiImportMapper.umamiEventKeyOnlySchema` —
a key-only structural check on one event: it constrains which keys are
present, not their string values, so any record of the Umami key set
satisfies it.  The same check is used for request validation (applied to
every event of the batch) and for platform sniffing (applied to the first
event). -/
def umamiEventKeyOnlySchema (_e : UmamiEvent) : Bool := true

/-- `z.string().uuid()` on the importId path parameter: 8-4-4-4-12
hexadecimal groups. -/
def isHexDigit (c : Char) : Bool :=
  c.isDigit || ('a' ≤ c && c ≤ 'f') || ('A' ≤ c && c ≤ 'F')

def isUuidLike (s : String) : Bool :=
  s.data.length = 36 &&
  (List.range 36).all (fun i =>
    let c := s.data.getD i ' '
    if i = 8 || i = 13 || i = 18 || i = 23 then c = '-' else isHexDigit c)

/-- Decimal value of a digit string. -/
def digitsToNat (cs : List Char) : Nat :=
  cs.foldl (fun n c => n * 10 + (c.toNat - 48)) 0

/-- `Number(site)` for the numeric strings the route receives: a nonempty
digit string parses to its value, anything else is NaN (none), which
compares unequal to every number. -/
def jsNumber (s : String) : Option Int :=
  if s ≠ "" && s.data.all Char.isDigit then some (digitsToNat s.data)
  else none

/-- The wire request: path parameters plus the JSON body
`{ events, isLastBatch? }`. -/
structure BatchReq where
  site : String
  importId : String
  events : List UmamiEvent
  isLastBatch : Option Bool
deriving DecidableEq, Repr

/-- `if (isLastBatch)` — the optional flag is truthy only when present and
true. -/
def BatchReq.lastTruthy (r : BatchReq) : Bool := r.isLastBatch == some true

/-- `batchImportRequestSchema.safeParse` succeeds: nonempty site string, a
uuid importId, 1 to 10000 events each passing the per-event schema. -/
def validRequest (r : BatchReq) : Bool :=
  r.site ≠ "" && isUuidLike r.importId &&
  1 ≤ r.events.length && r.events.length ≤ 10000 &&
  r.events.all umamiEventKeyOnlySchema

/-- The handler's reply: an error status with an `error` string, the 500
insert-failure reply which also carries a `message`, or a success body
`{ success: true, importedCount, quotaExceeded?, message? }` (an absent
`quotaExceeded` is the falsy `false` here). -/
inductive BatchResp where
  | err (status : Nat) (error : String)
  | errWithMessage (status : Nat) (error : String) (message : String)
  | ok (importedCount : Nat) (quotaExceeded : Bool) (message : Option String)
deriving DecidableEq, Repr

/-- Whether a reply is an error response (HTTP status at least 400). -/
def BatchResp.isError : BatchResp → Bool
  | .err .. => true
  | .errWithMessage .. => true
  | .ok .. => false

/-- Modelled from the spec: `ImportQuotaTracker.canImportEvent(timestamp)` —
locate the timestamp's calendar month in the trailing window; admit only if
the month is in the window with remaining capacity, decrementing that
month's remaining capacity on admission; timestamps outside the window or
unparseable are rejected. -/
def canImportEvent (w : List MonthQuota) (ts : String) :
    Bool × List MonthQuota :=
  match parseTimestamp ts with
  | none => (false, w)
  | some t =>
    match w.find? (fun m => m.year == t.year && m.month == t.month) with
    | none => (false, w)
    | some m =>
      if 0 < m.remaining then
        (true, w.map (fun q =>
          if q.year == t.year && q.month == t.month then
            { q with remaining := q.remaining - 1 }
          else q))
      else (false, w)

/-- Modelled from the spec: `quotaTracker.getSummary()` — how many months
of the window are at full capacity, and the window's size. -/
def getSummary (w : List MonthQuota) : Nat × Nat :=
  (w.countP (fun m => m.remaining = 0), w.length)

/-- One step of the handler's admission loop: an event without a
`created_at` is skipped silently (`continue`); otherwise the tracker
decides and is threaded through. -/
def quotaStep (acc : List UmamiEvent × Nat × List MonthQuota)
    (event : UmamiEvent) : List UmamiEvent × Nat × List MonthQuota :=
  if event.created_at = "" then acc
  else
    let p := canImportEvent acc.2.2 event.created_at
    if p.1 then (event :: acc.1, acc.2.1, p.2)
    else (acc.1, acc.2.1 + 1, p.2)

/-- The admission loop of the handler: partition the batch into admitted
events and a quota-skipped count. -/
def quotaPartition (w : List MonthQuota) (events : List UmamiEvent) :
    List UmamiEvent × Nat × List MonthQuota :=
  let r := events.foldl quotaStep ([], 0, w)
  (r.1.reverse, r.2.1, r.2.2)

/-- Modelled from the spec: `UmamiImportMapper.transform(events, site,
importId)` — map each admitted event to a storage row; a record lacking a
parseable creation timestamp is invalid and is dropped, never reaching
storage. -/
def transformEvents (events : List UmamiEvent) (site importId : String) :
    List (String × String × UmamiEvent) :=
  events.filterMap (fun e =>
    (parseTimestamp e.created_at).map (fun _ => (site, importId, e)))

/-- The quota-exhaustion message template of the handler. -/
def quotaMessageStr (numEvents totalMonths monthsAtCap : Nat) : String :=
  "All " ++ toString numEvents ++
  " events exceeded monthly quotas or fell outside the " ++
  toString totalMonths ++ "-month historical window. " ++
  toString monthsAtCap ++ " of " ++ toString totalMonths ++
  " months are at full capacity."

/-- The success message template of the handler. -/
def importedMessageStr (n skipped : Nat) : String :=
  "Imported " ++ toString n ++ " events" ++
  (if 0 < skipped then
    " (" ++ toString skipped ++ " skipped due to quota)" else "")

/-- The site lookup of the handler: organization of the numbered site. -/
def lookupOrg (st : ServerState) (siteNum : Option Int) : Option String :=
  match siteNum with
  | none => none
  | some n => (st.siteOrgs.find? (fun p => p.1 == n)).map (fun p => p.2)

/-- Modelled from the spec: `ImportQuotaTracker.create(organizationId)` —
seed the tracker from the organization's stored monthly usage/capacity. -/
def getOrgQuota (st : ServerState) (orgId : String) : List MonthQuota :=
  (((st.orgQuota.find? (fun p => p.1 == orgId)).map (fun p => p.2)).getD [])

/-- The body of the handler from the site/organization lookup onward
(source lines 86-176): quota partition, the all-rejected reply, transform,
the atomic insert (`insertResult` is the outcome of the one
`clickhouse.insert` call: none is success, some is the thrown error's
message — on a throw nothing is persisted, per the spec the whole batch's
insert is one atomic call), progress update and finalization. -/
def afterPlatform (st : ServerState) (req : BatchReq)
    (insertResult : Option String) : BatchResp × ServerState :=
  match lookupOrg st (jsNumber req.site) with
  | none => (.err 404 "Site not found", st)
  | some orgId =>
    let w := getOrgQuota st orgId
    let part := quotaPartition w req.events
    let eventsWithinQuota := part.1
    let skippedDueToQuota := part.2.1
    let wAfter := part.2.2
    if eventsWithinQuota.isEmpty then
      let summary := getSummary wAfter
      let quotaMessage :=
        quotaMessageStr req.events.length summary.2 summary.1
      let st2 :=
        if req.lastTruthy then
          updateImportStatus st req.importId .completed (some quotaMessage)
        else st
      (.ok 0 true (some quotaMessage), st2)
    else
      let transformedEvents :=
        transformEvents eventsWithinQuota req.site req.importId
      if transformedEvents.isEmpty then
        let st2 :=
          if req.lastTruthy then
            updateImportStatus st req.importId .completed
              (some "No valid events found in the final batch")
          else st
        (.ok 0 false (some "No valid events in batch"), st2)
      else
        match insertResult with
        | some errMsg =>
          (.errWithMessage 500 "Failed to insert events" errMsg,
           updateImportStatus st req.importId .failed
             (some ("Failed to insert events: " ++ errMsg)))
        | none =>
          let st2 := { st with store := st.store ++ transformedEvents }
          let st3 :=
            updateImportProgress st2 req.importId transformedEvents.length
          let st4 :=
            if req.lastTruthy then
              updateImportStatus st3 req.importId .completed
                (if 0 < skippedDueToQuota then
                  some ("Import completed. " ++ toString skippedDueToQuota ++
                    " events were skipped due to quota limits.")
                else none)
            else st3
          (.ok transformedEvents.length false
            (some (importedMessageStr transformedEvents.length
              skippedDueToQuota)), st4)

/-- Platform auto-detection (handler lines 72-84) applied to the state
`st1` that already received the pending-to-processing transition: with the
platform unset, sniff the first event against the same key-only schema the
request validation used, persist "umami" on success and reject otherwise;
with the platform already set, continue directly. -/
def detectPlatform (st1 : ServerState) (req : BatchReq)
    (platform : Option String) (insertResult : Option String) :
    BatchResp × ServerState :=
  match platform with
  | none =>
    if umamiEventKeyOnlySchema (req.events.headD default) then
      afterPlatform (setPlatform st1 req.importId "umami") req insertResult
    else
      (.err 400 "Unable to detect platform from event structure", st1)
  | some _ => afterPlatform st1 req insertResult

/-- `batchImportEvents` (src/unnamed/part_011): validation, authorization,
session lookup, site-ownership and terminal-state checks, the
pending-to-processing transition, platform auto-detection on the first
batch, then the quota/insert/finalize body.  `hasAccess` is the outcome of
`getUserHasAdminAccessToSite`; `insertResult` the outcome of the one
`clickhouse.insert` call. -/
def batchImportEvents (st : ServerState) (req : BatchReq) (hasAccess : Bool)
    (insertResult : Option String) : BatchResp × ServerState :=
  if !validRequest req then (.err 400 "Validation error", st)
  else if !hasAccess then (.err 403 "Forbidden", st)
  else
    match getImportById st req.importId with
    | none => (.err 404 "Import not found", st)
    | some importRecord =>
      if !(some importRecord.siteId == jsNumber req.site) then
        (.err 400 "Import does not belong to this site", st)
      else if importRecord.status == .completed then
        (.err 400 "Import already completed", st)
      else if importRecord.status == .failed then
        (.err 400 "Import has failed", st)
      else
        detectPlatform
          (if importRecord.status == .pending then
            updateImportStatus st req.importId .processing none
          else st)
          req importRecord.platform insertResult

/-! ## Sample data for witnesses -/

/-- A uuid-shaped import id. -/
def uuidSample : String := "123e4567-e89b-12d3-a456-426614174000"

/-- A canonical event with a valid timestamp in June 2024. -/
def eventSample : UmamiEvent :=
  ⟨"s1", "example.com", "Firefox", "Linux", "desktop", "1920x1080", "en",
   "US", "CA", "SF", "/", "", "", "", "", "Home", "pageview", "", "u1",
   "2024-06-15 12:00:00"⟩

/-- A raw row with every recognized field populated. -/
def rowSample : RawRecord :=
  ⟨.str "s1", .str "example.com", .str "Firefox", .str "Linux",
   .str "desktop", .str "1920x1080", .str "en", .str "US", .str "CA",
   .str "SF", .str "/", .str "q=1", .str "/r", .str "", .str "ref.com",
   .str "Home", .str "pageview", .str "click", .str "u1",
   .str "2024-06-15 12:00:00"⟩

/-- Filter bounds covering 2024 (as built from "2024-01-01" and
"2024-12-31"). -/
def cfgSample : FilterCfg :=
  ⟨⟨2024, 1, 1, 0, 0, 0, 0⟩, ⟨2024, 12, 31, 23, 59, 59, 999⟩⟩

/-! ## C7: the date-range filter boundary -/

/-- C7: with `earliestAllowedDate = "2024-01-01"` and `latestAllowedDate =
"2024-01-31"` (UTC, start of day / end of day), `"2024-01-01 00:00:00"` and
`"2024-01-31 23:59:59"` are accepted while `"2023-12-31 23:59:59"` and
`"2024-02-01 00:00:00"` are rejected; and every string that does not parse
in format `yyyy-MM-dd HH:mm:ss` is rejected (the filter is a total
function, it cannot throw). -/
theorem c7_date_filter_boundary :
    (∀ s, parseTimestamp s = none →
      isDateInRangeCfg "2024-01-01" "2024-01-31" s = some false) ∧
    isDateInRangeCfg "2024-01-01" "2024-01-31" "2024-01-01 00:00:00" =
      some true ∧
    isDateInRangeCfg "2024-01-01" "2024-01-31" "2023-12-31 23:59:59" =
      some false ∧
    isDateInRangeCfg "2024-01-01" "2024-01-31" "2024-01-31 23:59:59" =
      some true ∧
    isDateInRangeCfg "2024-01-01" "2024-01-31" "2024-02-01 00:00:00" =
      some false := by
  refine ⟨?_, by decide, by decide, by decide, by decide⟩
  intro s hs
  have hcfg : createDateRangeFilter "2024-01-01" "2024-01-31" =
      some (⟨2024, 1, 1, 0, 0, 0, 0⟩, ⟨2024, 1, 31, 23, 59, 59, 999⟩) := by
    decide
  simp [isDateInRangeCfg, hcfg, isDateInRange, hs]

/-- Witness for C7: a concrete malformed timestamp is rejected. -/
theorem c7_witness :
    isDateInRangeCfg "2024-01-01" "2024-01-31" "31/12/2023" = some false :=
  c7_date_filter_boundary.1 "31/12/2023" (by decide)

/-! ## C9: the event mapper preserves recognized fields -/

/-- C9: for every raw record and every recognized field, the mapper
produces a canonical event in which a populated (string) field is preserved
unchanged and a missing (`undefined`) field becomes the empty string; the
mapper is a total function, so no input errors. -/
theorem c9_mapper_round_trip (r : RawRecord) (f : UField) :
    (∀ s : String, r.get f = JSValue.str s → (mapRawEvent r).get f = s) ∧
    (r.get f = JSValue.undef → (mapRawEvent r).get f = "") := by
  have hget : (mapRawEvent r).get f = coerceField (r.get f) := by
    cases f <;> rfl
  refine ⟨?_, ?_⟩
  · intro s hs
    rw [hget, hs]
    by_cases h : s = ""
    · subst h; rfl
    · simp [coerceField, JSValue.truthy, h]
  · intro h
    rw [hget, h]
    rfl

/-- Witness for C9: a populated field is copied, a missing one defaults. -/
theorem c9_witness :
    (mapRawEvent { rowSample with city := .undef }).get .browser =
      "Firefox" ∧
    (mapRawEvent { rowSample with city := .undef }).get .city = "" :=
  ⟨(c9_mapper_round_trip { rowSample with city := .undef } .browser).1
      "Firefox" (by decide),
   (c9_mapper_round_trip { rowSample with city := .undef } .city).2
      (by decide)⟩

/-! ## Session-row update lemmas -/

/-- Updating the rows whose id matches and then looking the id up finds the
updated row (updates preserve the id). -/
theorem find_session_update (l : List ImportSession) (id : String)
    (f : ImportSession → ImportSession)
    (hf : ∀ s, (f s).importId = s.importId) :
    findSession (updateSessions l id f) id = (findSession l id).map f := by
  induction l with
  | nil => rfl
  | cons a t ih =>
    by_cases h : a.importId = id
    · simp [updateSessions, findSession, h, hf]
    · simp [updateSessions, findSession, h, ih]

theorem getImportById_updateStatus (st : ServerState) (id : String)
    (status : ImportStatusV) (msg : Option String) :
    getImportById (updateImportStatus st id status msg) id =
      (getImportById st id).map (fun s =>
        { s with status := status,
                 errorMessage := match msg with
                   | none => s.errorMessage
                   | some m => some m }) :=
  find_session_update _ _ _ (fun _ => rfl)

theorem getImportById_setPlatform (st : ServerState) (id p : String) :
    getImportById (setPlatform st id p) id =
      (getImportById st id).map (fun s => { s with platform := some p }) :=
  find_session_update _ _ _ (fun _ => rfl)

theorem getImportById_updateProgress (st : ServerState) (id : String)
    (n : Nat) :
    getImportById (updateImportProgress st id n) id =
      (getImportById st id).map (fun s =>
        { s with importedEvents := s.importedEvents + n }) :=
  find_session_update _ _ _ (fun _ => rfl)

/-! ## Terminal sessions reject every request unchanged -/

/-- A request for a session already `completed` or `failed` is answered
with an error before any write: the whole server state is returned as it
was. -/
theorem terminal_reject (st : ServerState) (req : BatchReq)
    (hasAccess : Bool) (ins : Option String) (sess : ImportSession)
    (hfind : getImportById st req.importId = some sess)
    (hterm : sess.status = .completed ∨ sess.status = .failed) :
    (batchImportEvents st req hasAccess ins).1.isError = true ∧
    (batchImportEvents st req hasAccess ins).2 = st := by
  unfold batchImportEvents
  rw [hfind]
  cases hv : validRequest req with
  | false => simp [BatchResp.isError]
  | true =>
    cases hasAccess with
    | false => simp [BatchResp.isError]
    | true =>
      cases hsite : (some sess.siteId == jsNumber req.site) with
      | false => simp [hsite, BatchResp.isError]
      | true =>
        rcases hterm with h | h <;> simp [hsite, h, BatchResp.isError]

/-- C3: once a session is `completed` or `failed`, any further batch
request for its importId gets an error response and leaves the server
state — in particular the session's importedEvents counter and status —
unchanged. -/
theorem c3_terminal_state_rejection (st : ServerState) (req : BatchReq)
    (hasAccess : Bool) (ins : Option String) (sess : ImportSession)
    (hfind : getImportById st req.importId = some sess)
    (hterm : sess.status = .completed ∨ sess.status = .failed) :
    (batchImportEvents st req hasAccess ins).1.isError = true ∧
    (batchImportEvents st req hasAccess ins).2 = st ∧
    (getImportById (batchImportEvents st req hasAccess ins).2
        req.importId).map ImportSession.importedEvents =
      some sess.importedEvents ∧
    (getImportById (batchImportEvents st req hasAccess ins).2
        req.importId).map ImportSession.status = some sess.status := by
  obtain ⟨h1, h2⟩ := terminal_reject st req hasAccess ins sess hfind hterm
  refine ⟨h1, h2, ?_, ?_⟩ <;> rw [h2, hfind] <;> rfl

/-- A concrete session that already completed, and a server state and
request around it. -/
def sessCompleted : ImportSession :=
  ⟨uuidSample, 1, .completed, some "umami", 42, none⟩

def stCompleted : ServerState :=
  ⟨[sessCompleted], [(1, "org1")], [("org1", [⟨2024, 6, 10⟩])], []⟩

def reqSample : BatchReq := ⟨"1", uuidSample, [eventSample], some true⟩

/-- Witness for C3: a concrete completed session rejects a batch and keeps
its state. -/
theorem c3_witness :
    (batchImportEvents stCompleted reqSample true none).1.isError = true ∧
    (batchImportEvents stCompleted reqSample true none).2 = stCompleted := by
  have h := c3_terminal_state_rejection stCompleted reqSample true none
    sessCompleted (by decide) (Or.inl rfl)
  exact ⟨h.1, h.2.1⟩

/-! ## C6: protocol/state rejections do not touch the session row -/

/-- The replies produced past the platform check are never one of the
protocol/state rejections: `afterPlatform` answers only `Site not found`,
a success body, or the 500 insert failure. -/
theorem afterPlatform_resp_shape (stA : ServerState) (req : BatchReq)
    (ins : Option String) (resp : BatchResp) (st2 : ServerState)
    (hrun : afterPlatform stA req ins = (resp, st2)) :
    resp = .err 404 "Site not found" ∨
    (∃ n q m, resp = .ok n q m) ∨
    (∃ e, resp = .errWithMessage 500 "Failed to insert events" e) := by
  unfold afterPlatform at hrun
  split at hrun
  · cases hrun
    exact Or.inl rfl
  · simp only [] at hrun
    split at hrun
    · cases hrun
      exact Or.inr (Or.inl ⟨_, _, _, rfl⟩)
    · split at hrun
      · cases hrun
        exact Or.inr (Or.inl ⟨_, _, _, rfl⟩)
      · split at hrun
        · cases hrun
          exact Or.inr (Or.inr ⟨_, rfl⟩)
        · cases hrun
          exact Or.inr (Or.inl ⟨_, _, _, rfl⟩)

/-- Past the terminal-state checks the reply is never a protocol/state
rejection: with the key-only event schema (the same check request
validation applied), platform sniffing cannot fail, so only `afterPlatform`
replies remain. -/
theorem detectPlatform_resp_shape (st1 : ServerState) (req : BatchReq)
    (platform : Option String) (ins : Option String) (resp : BatchResp)
    (st2 : ServerState)
    (hrun : detectPlatform st1 req platform ins = (resp, st2)) :
    resp = .err 404 "Site not found" ∨
    (∃ n q m, resp = .ok n q m) ∨
    (∃ e, resp = .errWithMessage 500 "Failed to insert events" e) := by
  unfold detectPlatform at hrun
  cases platform with
  | none =>
    rw [show umamiEventKeyOnlySchema (req.events.headD default) = true
      from rfl] at hrun
    simp only [if_true] at hrun
    exact afterPlatform_resp_shape _ _ _ _ _ hrun
  | some p => exact afterPlatform_resp_shape _ _ _ _ _ hrun

/-- C6: every batch request rejected as a protocol/state error — session
not found, import belonging to a different site, session already terminal,
or the unrecognized-platform rejection on the first batch — leaves the
stored server state (in particular the ImportSession row) exactly as it
was; in particular a pending session is not moved to processing by such a
rejection.  (With the key-only event schema also used for request
validation, the unrecognized-platform branch is in fact unreachable.) -/
theorem c6_protocol_error_state_unchanged (st : ServerState)
    (req : BatchReq) (hasAccess : Bool) (ins : Option String)
    (resp : BatchResp) (st2 : ServerState)
    (hrun : batchImportEvents st req hasAccess ins = (resp, st2))
    (herr : resp = .err 404 "Import not found" ∨
            resp = .err 400 "Import does not belong to this site" ∨
            resp = .err 400 "Import already completed" ∨
            resp = .err 400 "Import has failed" ∨
            resp = .err 400 "Unable to detect platform from event structure") :
    st2 = st := by
  unfold batchImportEvents at hrun
  repeat' split at hrun
  all_goals
    first
    | (cases hrun; rfl)
    | (have h := detectPlatform_resp_shape _ _ _ _ _ _ hrun
       rcases h with h | ⟨n, q, m, h⟩ | ⟨e, h⟩ <;> subst h <;>
         rcases herr with h2 | h2 | h2 | h2 | h2 <;> simp at h2)

/-- Witness for C6: the concrete terminal-session rejection leaves the
concrete state untouched. -/
theorem c6_witness :
    batchImportEvents stCompleted reqSample true none =
      (.err 400 "Import already completed", stCompleted) ∧
    (batchImportEvents stCompleted reqSample true none).2 = stCompleted :=
  ⟨by decide,
   c6_protocol_error_state_unchanged stCompleted reqSample true none
     (.err 400 "Import already completed") stCompleted
     (by decide) (Or.inr (Or.inr (Or.inl rfl)))⟩

/-! ## Reaching the handler body -/

/-- The server state as the handler body sees it once all guards have
passed: the pending-to-processing transition applied, and the platform
persisted when it was unset. -/
def platState (st : ServerState) (req : BatchReq) (sess : ImportSession) :
    ServerState :=
  match sess.platform with
  | none =>
    setPlatform
      (if sess.status == .pending then
        updateImportStatus st req.importId .processing none
      else st)
      req.importId "umami"
  | some _ =>
    if sess.status == .pending then
      updateImportStatus st req.importId .processing none
    else st

theorem platState_siteOrgs (st : ServerState) (req : BatchReq)
    (sess : ImportSession) : (platState st req sess).siteOrgs = st.siteOrgs := by
  unfold platState
  split <;> split <;> rfl

theorem platState_orgQuota (st : ServerState) (req : BatchReq)
    (sess : ImportSession) : (platState st req sess).orgQuota = st.orgQuota := by
  unfold platState
  split <;> split <;> rfl

theorem platState_store (st : ServerState) (req : BatchReq)
    (sess : ImportSession) : (platState st req sess).store = st.store := by
  unfold platState
  split <;> split <;> rfl

theorem lookupOrg_platState (st : ServerState) (req : BatchReq)
    (sess : ImportSession) (x : Option Int) :
    lookupOrg (platState st req sess) x = lookupOrg st x := by
  cases x <;> simp [lookupOrg, platState_siteOrgs]

theorem getOrgQuota_platState (st : ServerState) (req : BatchReq)
    (sess : ImportSession) (orgId : String) :
    getOrgQuota (platState st req sess) orgId = getOrgQuota st orgId := by
  simp [getOrgQuota, platState_orgQuota]

/-- The handler body sees the session row with the same counters and
message it had: only status and platform may have been touched. -/
theorem getImportById_platState (st : ServerState) (req : BatchReq)
    (sess : ImportSession)
    (hfind : getImportById st req.importId = some sess) :
    ∃ s2, getImportById (platState st req sess) req.importId = some s2 ∧
      s2.importedEvents = sess.importedEvents ∧
      s2.errorMessage = sess.errorMessage := by
  unfold platState
  cases hp : sess.platform with
  | none =>
    by_cases hpend : (sess.status == ImportStatusV.pending) = true
    · rw [if_pos hpend, getImportById_setPlatform,
        getImportById_updateStatus, hfind]
      exact ⟨_, rfl, rfl, rfl⟩
    · rw [if_neg hpend, getImportById_setPlatform, hfind]
      exact ⟨_, rfl, rfl, rfl⟩
  | some p =>
    by_cases hpend : (sess.status == ImportStatusV.pending) = true
    · rw [if_pos hpend, getImportById_updateStatus, hfind]
      exact ⟨_, rfl, rfl, rfl⟩
    · rw [if_neg hpend, hfind]
      exact ⟨_, rfl, rfl, rfl⟩

/-- Once validation, authorization, ownership and the terminal-state checks
pass, the handler is exactly its body applied to the transitioned state. -/
theorem batch_run_eq_afterPlatform (st : ServerState) (req : BatchReq)
    (ins : Option String) (sess : ImportSession)
    (hv : validRequest req = true)
    (hfind : getImportById st req.importId = some sess)
    (hsite : (some sess.siteId == jsNumber req.site) = true)
    (hnc : sess.status ≠ .completed) (hnf : sess.status ≠ .failed) :
    batchImportEvents st req true ins =
      afterPlatform (platState st req sess) req ins := by
  have hc : (sess.status == ImportStatusV.completed) = false := by
    simp [hnc]
  have hf2 : (sess.status == ImportStatusV.failed) = false := by
    simp [hnf]
  unfold batchImportEvents
  rw [hv]
  simp only [Bool.not_true, Bool.false_eq_true, if_false]
  rw [hfind]
  simp only [hsite, hc, hf2, Bool.not_true, Bool.false_eq_true, if_false]
  unfold detectPlatform platState
  cases hp : sess.platform <;> simp [umamiEventKeyOnlySchema]

/-! ## The handler body on the two paths the claims need -/

/-- The quota message the handler builds when a batch admits nothing
(tracker state unchanged: nothing was admitted, so nothing was
decremented). -/
def quotaRespMessage (stA : ServerState) (req : BatchReq) (orgId : String) :
    String :=
  quotaMessageStr req.events.length
    (getSummary (quotaPartition (getOrgQuota stA orgId) req.events).2.2).2
    (getSummary (quotaPartition (getOrgQuota stA orgId) req.events).2.2).1

/-- Body outcome when the insert throws: the 500 reply and the session
marked failed with the error text — and nothing else: the store is not
touched (the one insert call is atomic) and the progress counter is not
incremented. -/
theorem afterPlatform_insert_fail (stA : ServerState) (req : BatchReq)
    (errMsg orgId : String)
    (horg : lookupOrg stA (jsNumber req.site) = some orgId)
    (htrans : transformEvents
        (quotaPartition (getOrgQuota stA orgId) req.events).1
        req.site req.importId ≠ []) :
    afterPlatform stA req (some errMsg) =
      (.errWithMessage 500 "Failed to insert events" errMsg,
       updateImportStatus stA req.importId .failed
         (some ("Failed to insert events: " ++ errMsg))) := by
  have hadm : (quotaPartition (getOrgQuota stA orgId) req.events).1.isEmpty
      = false := by
    cases hq : (quotaPartition (getOrgQuota stA orgId) req.events).1 with
    | nil => exact absurd (by rw [hq]; rfl) htrans
    | cons a l => rfl
  have htre : (transformEvents
      (quotaPartition (getOrgQuota stA orgId) req.events).1
      req.site req.importId).isEmpty = false := by
    cases hq : transformEvents
        (quotaPartition (getOrgQuota stA orgId) req.events).1
        req.site req.importId with
    | nil => exact absurd hq htrans
    | cons a l => rfl
  unfold afterPlatform
  rw [horg]
  simp only [hadm, htre, Bool.false_eq_true, if_false]

/-- Body outcome when the quota tracker admits nothing: a success reply
with zero imported and `quotaExceeded: true`, and — only when the batch is
flagged last — the session finalized as completed with the quota
message. -/
theorem afterPlatform_quota_exhausted (stA : ServerState) (req : BatchReq)
    (ins : Option String) (orgId : String)
    (horg : lookupOrg stA (jsNumber req.site) = some orgId)
    (hadm : (quotaPartition (getOrgQuota stA orgId) req.events).1 = []) :
    afterPlatform stA req ins =
      (.ok 0 true (some (quotaRespMessage stA req orgId)),
       if req.lastTruthy then
         updateImportStatus stA req.importId .completed
           (some (quotaRespMessage stA req orgId))
       else stA) := by
  unfold afterPlatform quotaRespMessage
  rw [horg]
  simp only [hadm, List.isEmpty_nil, if_true]

/-! ## C4: an insert failure fails the session and halts the import -/

/-- C4: when the storage insert throws for a batch that reached it, the
handler replies 500 with the error text, the session is marked failed with
that text, its importedEvents counter is not incremented, the event store
is unchanged (no partial subset of the batch is committed), and every
subsequent batch request for that import is rejected without changing
state. -/
theorem c4_insert_failure_fails_session (st : ServerState) (req : BatchReq)
    (sess : ImportSession) (orgId errMsg : String)
    (hv : validRequest req = true)
    (hfind : getImportById st req.importId = some sess)
    (hsite : (some sess.siteId == jsNumber req.site) = true)
    (hstat : sess.status = .pending ∨ sess.status = .processing)
    (horg : lookupOrg st (jsNumber req.site) = some orgId)
    (htrans : transformEvents
        (quotaPartition (getOrgQuota st orgId) req.events).1
        req.site req.importId ≠ []) :
    (batchImportEvents st req true (some errMsg)).1 =
      .errWithMessage 500 "Failed to insert events" errMsg ∧
    (∃ s2, getImportById (batchImportEvents st req true (some errMsg)).2
        req.importId = some s2 ∧
      s2.status = .failed ∧
      s2.errorMessage = some ("Failed to insert events: " ++ errMsg) ∧
      s2.importedEvents = sess.importedEvents) ∧
    (batchImportEvents st req true (some errMsg)).2.store = st.store ∧
    (∀ (req2 : BatchReq) (hasAccess2 : Bool) (ins2 : Option String),
      req2.importId = req.importId →
      (batchImportEvents (batchImportEvents st req true (some errMsg)).2
          req2 hasAccess2 ins2).1.isError = true ∧
      (batchImportEvents (batchImportEvents st req true (some errMsg)).2
          req2 hasAccess2 ins2).2 =
        (batchImportEvents st req true (some errMsg)).2) := by
  have hnc : sess.status ≠ .completed := by
    rcases hstat with h | h <;> rw [h] <;> exact fun hk => by cases hk
  have hnf : sess.status ≠ .failed := by
    rcases hstat with h | h <;> rw [h] <;> exact fun hk => by cases hk
  have hrun := batch_run_eq_afterPlatform st req (some errMsg) sess hv hfind
    hsite hnc hnf
  have horg2 : lookupOrg (platState st req sess) (jsNumber req.site) =
      some orgId := by rw [lookupOrg_platState]; exact horg
  have htrans2 : transformEvents
      (quotaPartition (getOrgQuota (platState st req sess) orgId)
        req.events).1 req.site req.importId ≠ [] := by
    rw [getOrgQuota_platState]; exact htrans
  have hfail := afterPlatform_insert_fail (platState st req sess) req errMsg
    orgId horg2 htrans2
  rw [hrun, hfail]
  obtain ⟨s2, hs2, hs2imp, hs2msg⟩ := getImportById_platState st req sess
    hfind
  have hlook : getImportById
      (updateImportStatus (platState st req sess) req.importId .failed
        (some ("Failed to insert events: " ++ errMsg))) req.importId =
      some { s2 with
               status := .failed,
               errorMessage :=
                 some ("Failed to insert events: " ++ errMsg) } := by
    rw [getImportById_updateStatus, hs2]
    rfl
  refine ⟨rfl, ⟨_, hlook, rfl, rfl, hs2imp⟩, ?_, ?_⟩
  · show (updateImportStatus (platState st req sess) _ _ _).store = st.store
    have : (updateImportStatus (platState st req sess) req.importId .failed
        (some ("Failed to insert events: " ++ errMsg))).store =
        (platState st req sess).store := rfl
    rw [this, platState_store]
  · intro req2 hasAccess2 ins2 hid
    exact terminal_reject _ req2 hasAccess2 ins2 _ (by rw [hid]; exact hlook)
      (Or.inr rfl)

/-- A concrete in-progress session, server state, and a state whose only
quota month is already exhausted. -/
def sessProcessing : ImportSession :=
  ⟨uuidSample, 1, .processing, some "umami", 7, none⟩

def stImport : ServerState :=
  ⟨[sessProcessing], [(1, "org1")], [("org1", [⟨2024, 6, 10⟩])], []⟩

def stQuota0 : ServerState :=
  ⟨[sessProcessing], [(1, "org1")], [("org1", [⟨2024, 6, 0⟩])], []⟩

/-- Witness for C4: a concrete insert failure gives the 500 reply, marks
the session failed without counting the batch, and the next request is
rejected. -/
theorem c4_witness :
    (batchImportEvents stImport reqSample true (some "disk full")).1 =
      .errWithMessage 500 "Failed to insert events" "disk full" ∧
    (batchImportEvents stImport reqSample true (some "disk full")).2.store =
      stImport.store := by
  have h := c4_insert_failure_fails_session stImport reqSample
    sessProcessing "org1" "disk full" (by decide) (by decide) (by decide)
    (Or.inr rfl) (by decide) (by decide)
  exact ⟨h.1, h.2.2.1⟩

/-! ## C5 and C10: quota-exhausted replies and the client soft-stop -/

/-- The quota message only depends on the state through the organization's
stored window, which the guard transitions do not touch. -/
theorem quotaRespMessage_platState (st : ServerState) (req : BatchReq)
    (sess : ImportSession) (orgId : String) :
    quotaRespMessage (platState st req sess) req orgId =
      quotaRespMessage st req orgId := by
  unfold quotaRespMessage
  rw [getOrgQuota_platState]

/-- A batch whose events all lack `created_at` is partitioned into nothing:
no event is admitted, none is counted against quota, the tracker is not
consulted. -/
theorem quotaPartition_all_empty (w : List MonthQuota)
    (events : List UmamiEvent) (h : ∀ e ∈ events, e.created_at = "") :
    quotaPartition w events = ([], 0, w) := by
  unfold quotaPartition
  have haux : ∀ (l : List UmamiEvent), (∀ e ∈ l, e.created_at = "") →
      ∀ acc : List UmamiEvent × Nat × List MonthQuota,
        l.foldl quotaStep acc = acc := by
    intro l
    induction l with
    | nil => intro _ acc; rfl
    | cons a t ih =>
      intro hl acc
      rw [List.foldl_cons,
        show quotaStep acc a = acc from by
          simp [quotaStep, hl a (by simp)]]
      exact ih (fun e he => hl e (by simp [he])) acc
  rw [haux events h]
  rfl

/-- After a `quotaExceeded` response the coordinator is stopped: no event
whatsoever makes it start another upload (`sent` is frozen), and it stays
aborted with the quota flag set. -/
theorem stopped_sent_frozen (cfg : FilterCfg) (evs : List MEvent) :
    ∀ st : CState, st.aborted = true → st.quotaExceeded = true →
      (runEvents cfg st evs).sent = st.sent ∧
      (runEvents cfg st evs).aborted = true ∧
      (runEvents cfg st evs).quotaExceeded = true := by
  induction evs with
  | nil => exact fun st ha hq => ⟨rfl, ha, hq⟩
  | cons e t ih =>
    intro st ha hq
    have hstep : (stepEvent cfg st e).sent = st.sent ∧
        (stepEvent cfg st e).aborted = true ∧
        (stepEvent cfg st e).quotaExceeded = true := by
      cases e with
      | row r => simp [stepEvent, ha, hq]
      | parseDone => simp [stepEvent, ha, hq]
      | response r =>
        cases hp : st.pending with
        | nil => cases r <;> simp [stepEvent, finishUpload, hp, ha, hq]
        | cons q rest =>
          cases r <;>
            simp [stepEvent, finishUpload, hp, ha, hq, checkCompletionC]
    have hrest := ih (stepEvent cfg st e) hstep.2.1 hstep.2.2
    have hre : runEvents cfg st (e :: t) =
        runEvents cfg (stepEvent cfg st e) t := rfl
    rw [hre]
    exact ⟨hrest.1.trans hstep.1, hrest.2.1, hrest.2.2⟩

/-- C5: when the quota tracker admits no event of a batch, the server
replies success with `importedCount 0` and `quotaExceeded: true`, and
finalizes the session as completed with the quota message when the batch is
flagged last; and a client coordinator that receives any response carrying
`quotaExceeded: true` sets the soft-stop flags, reports the import as
successfully complete with the quota message, and never starts another
upload no matter what the parser still produces. -/
theorem c5_quota_exhausted_soft_stop (st : ServerState) (req : BatchReq)
    (sess : ImportSession) (orgId : String) (ins : Option String)
    (hv : validRequest req = true)
    (hfind : getImportById st req.importId = some sess)
    (hsite : (some sess.siteId == jsNumber req.site) = true)
    (hstat : sess.status = .pending ∨ sess.status = .processing)
    (horg : lookupOrg st (jsNumber req.site) = some orgId)
    (hadm : (quotaPartition (getOrgQuota st orgId) req.events).1 = []) :
    (batchImportEvents st req true ins).1 =
      .ok 0 true (some (quotaRespMessage st req orgId)) ∧
    (req.lastTruthy = true →
      ∃ s2, getImportById (batchImportEvents st req true ins).2
          req.importId = some s2 ∧ s2.status = .completed ∧
        s2.errorMessage = some (quotaRespMessage st req orgId)) ∧
    (∀ (cst : CState) (m : Option String), cst.pending ≠ [] →
      (finishUpload cst (.okQuota m)).quotaExceeded = true ∧
      (finishUpload cst (.okQuota m)).aborted = true ∧
      (finishUpload cst (.okQuota m)).completions =
        cst.completions ++
          [(true, jsOrElse m "Import completed with quota limits")] ∧
      ∀ (cfg : FilterCfg) (evs : List MEvent),
        (runEvents cfg (finishUpload cst (.okQuota m)) evs).sent =
          cst.sent) := by
  have hnc : sess.status ≠ .completed := by
    rcases hstat with h | h <;> rw [h] <;> exact fun hk => by cases hk
  have hnf : sess.status ≠ .failed := by
    rcases hstat with h | h <;> rw [h] <;> exact fun hk => by cases hk
  have hrun := batch_run_eq_afterPlatform st req ins sess hv hfind hsite
    hnc hnf
  have horg2 : lookupOrg (platState st req sess) (jsNumber req.site) =
      some orgId := by rw [lookupOrg_platState]; exact horg
  have hadm2 : (quotaPartition (getOrgQuota (platState st req sess) orgId)
      req.events).1 = [] := by rw [getOrgQuota_platState]; exact hadm
  have hq := afterPlatform_quota_exhausted (platState st req sess) req ins
    orgId horg2 hadm2
  rw [quotaRespMessage_platState] at hq
  rw [hrun, hq]
  obtain ⟨s2, hs2, hs2imp, hs2msg⟩ := getImportById_platState st req sess
    hfind
  refine ⟨rfl, ?_, ?_⟩
  · intro hlast
    rw [hlast]
    simp only [if_true]
    rw [getImportById_updateStatus, hs2]
    exact ⟨_, rfl, rfl, rfl⟩
  · intro cst m hpend
    cases hp : cst.pending with
    | nil => exact absurd hp hpend
    | cons q rest =>
      refine ⟨by simp [finishUpload, hp], by simp [finishUpload, hp],
        by simp [finishUpload, hp], ?_⟩
      intro cfg evs
      have hstop := stopped_sent_frozen cfg evs
        (finishUpload cst (.okQuota m))
        (by simp [finishUpload, hp]) (by simp [finishUpload, hp])
      rw [hstop.1]
      simp [finishUpload, hp]

/-- Witness for C5: a concrete exhausted window gives the quota reply, and
a concrete stopped client sends nothing more. -/
def cstPending : CState :=
  ⟨false, true, false, false, [], [([eventSample], true)],
    [([eventSample], true)], []⟩

theorem c5_witness :
    (batchImportEvents stQuota0 reqSample true none).1 =
      .ok 0 true (some (quotaRespMessage stQuota0 reqSample "org1")) ∧
    (runEvents cfgSample (finishUpload cstPending (.okQuota (some "limit")))
        [.row rowSample, .parseDone]).sent = cstPending.sent := by
  have h := c5_quota_exhausted_soft_stop stQuota0 reqSample sessProcessing
    "org1" none (by decide) (by decide) (by decide) (Or.inr rfl)
    (by decide) (by decide)
  exact ⟨h.1, (h.2.2 cstPending (some "limit") (by decide)).2.2.2 cfgSample
    [.row rowSample, .parseDone]⟩

/-- C10: a batch in which every event has an empty `created_at` (which the
key-only schema admits) is answered with success, `importedCount 0` and
`quotaExceeded: true` — even when every month of the window still has
remaining capacity, so no quota was actually exceeded (the summary in the
message reports zero months at capacity) — finalizing the session as
completed when the batch is flagged last; the client then reports success
and sends no further batches. -/
theorem c10_empty_created_at_reports_quota (st : ServerState)
    (req : BatchReq) (sess : ImportSession) (orgId : String)
    (ins : Option String)
    (hv : validRequest req = true)
    (hfind : getImportById st req.importId = some sess)
    (hsite : (some sess.siteId == jsNumber req.site) = true)
    (hstat : sess.status = .pending ∨ sess.status = .processing)
    (horg : lookupOrg st (jsNumber req.site) = some orgId)
    (hempty : ∀ e ∈ req.events, e.created_at = "")
    (hcap : ∀ mq ∈ getOrgQuota st orgId, 0 < mq.remaining) :
    (batchImportEvents st req true ins).1 =
      .ok 0 true (some (quotaRespMessage st req orgId)) ∧
    (getSummary (getOrgQuota st orgId)).1 = 0 ∧
    (req.lastTruthy = true →
      ∃ s2, getImportById (batchImportEvents st req true ins).2
          req.importId = some s2 ∧ s2.status = .completed ∧
        s2.errorMessage = some (quotaRespMessage st req orgId)) ∧
    (∀ (cst : CState) (m : Option String), cst.pending ≠ [] →
      (finishUpload cst (.okQuota m)).completions =
        cst.completions ++
          [(true, jsOrElse m "Import completed with quota limits")] ∧
      ∀ (cfg : FilterCfg) (evs : List MEvent),
        (runEvents cfg (finishUpload cst (.okQuota m)) evs).sent =
          cst.sent) := by
  have hadm : (quotaPartition (getOrgQuota st orgId) req.events).1 = [] := by
    rw [quotaPartition_all_empty _ _ hempty]
  have hnc : sess.status ≠ .completed := by
    rcases hstat with h | h <;> rw [h] <;> exact fun hk => by cases hk
  have hnf : sess.status ≠ .failed := by
    rcases hstat with h | h <;> rw [h] <;> exact fun hk => by cases hk
  have hrun := batch_run_eq_afterPlatform st req ins sess hv hfind hsite
    hnc hnf
  have horg2 : lookupOrg (platState st req sess) (jsNumber req.site) =
      some orgId := by rw [lookupOrg_platState]; exact horg
  have hadm2 : (quotaPartition (getOrgQuota (platState st req sess) orgId)
      req.events).1 = [] := by rw [getOrgQuota_platState]; exact hadm
  have hq := afterPlatform_quota_exhausted (platState st req sess) req ins
    orgId horg2 hadm2
  rw [quotaRespMessage_platState] at hq
  rw [hrun, hq]
  obtain ⟨s2, hs2, hs2imp, hs2msg⟩ := getImportById_platState st req sess
    hfind
  refine ⟨rfl, ?_, ?_, ?_⟩
  · unfold getSummary
    simp only []
    rw [List.countP_eq_zero]
    intro mq hmq
    have := hcap mq hmq
    simp only [decide_eq_true_eq]
    omega
  · intro hlast
    rw [hlast]
    simp only [if_true]
    rw [getImportById_updateStatus, hs2]
    exact ⟨_, rfl, rfl, rfl⟩
  · intro cst m hpend
    cases hp : cst.pending with
    | nil => exact absurd hp hpend
    | cons q rest =>
      refine ⟨by simp [finishUpload, hp], ?_⟩
      intro cfg evs
      have hstop := stopped_sent_frozen cfg evs
        (finishUpload cst (.okQuota m))
        (by simp [finishUpload, hp]) (by simp [finishUpload, hp])
      rw [hstop.1]
      simp [finishUpload, hp]

/-- Witness for C10: one event with an empty timestamp against a window
with plenty of room still earns the `quotaExceeded` reply. -/
def eventNoDate : UmamiEvent :=
  ⟨"s1", "", "", "", "", "", "", "", "", "", "", "", "", "", "", "", "",
   "", "", ""⟩

def reqNoDate : BatchReq := ⟨"1", uuidSample, [eventNoDate], some true⟩

theorem c10_witness :
    (batchImportEvents stImport reqNoDate true none).1 =
      .ok 0 true (some (quotaRespMessage stImport reqNoDate "org1")) ∧
    (getSummary (getOrgQuota stImport "org1")).1 = 0 := by
  have h := c10_empty_created_at_reports_quota stImport reqNoDate
    sessProcessing "org1" none (by decide) (by decide) (by decide)
    (Or.inr rfl) (by decide) (by decide) (by decide)
  exact ⟨h.1, h.2.1⟩

/-! ## Feeding the coordinator accepted rows -/

/-- Size and flag of an upload request. -/
def sizeFlag (p : List UmamiEvent × Bool) : Nat × Bool := (p.1.length, p.2)

/-- State of the coordinator after `n` accepted rows and no server
response: the batch under construction holds `n % 5000` rows, and — the
crux — every full batch's upload has already been started, so `n / 5000`
uploads are pending simultaneously; nothing has completed or aborted. -/
theorem run_rows_spec (cfg : FilterCfg) (raw : RawRecord)
    (hacc : rowAccepted cfg raw = true) (n : Nat) :
    (runEvents cfg initCState (List.replicate n (MEvent.row raw))).aborted
        = false ∧
    (runEvents cfg initCState
        (List.replicate n (MEvent.row raw))).quotaExceeded = false ∧
    (runEvents cfg initCState
        (List.replicate n (MEvent.row raw))).parsingComplete = false ∧
    (runEvents cfg initCState
        (List.replicate n (MEvent.row raw))).completions = [] ∧
    (runEvents cfg initCState
        (List.replicate n (MEvent.row raw))).currentBatchRev.length =
      n % BATCH_SIZE ∧
    (runEvents cfg initCState
        (List.replicate n (MEvent.row raw))).pending.map sizeFlag =
      List.replicate (n / BATCH_SIZE) (BATCH_SIZE, false) ∧
    (runEvents cfg initCState
        (List.replicate n (MEvent.row raw))).sent.map sizeFlag =
      List.replicate (n / BATCH_SIZE) (BATCH_SIZE, false) ∧
    (runEvents cfg initCState
        (List.replicate n (MEvent.row raw))).uploadInProgress =
      decide (BATCH_SIZE ≤ n) := by
  have hacc2 := hacc
  rw [rowAccepted, Bool.and_eq_true] at hacc2
  have hne : (mapRawEvent raw).created_at ≠ "" :=
    of_decide_eq_true hacc2.1
  have hin : isDateInRange cfg.earliest cfg.latest
      (mapRawEvent raw).created_at = true := hacc2.2
  induction n with
  | zero => exact ⟨rfl, rfl, rfl, rfl, rfl, rfl, rfl, rfl⟩
  | succ n ih =>
    obtain ⟨iha, ihq, ihp, ihc, ihlen, ihpend, ihsent, ihup⟩ := ih
    have hsplit : runEvents cfg initCState
        (List.replicate (n + 1) (MEvent.row raw)) =
        stepEvent cfg
          (runEvents cfg initCState (List.replicate n (MEvent.row raw)))
          (MEvent.row raw) := by
      rw [List.replicate_succ']
      unfold runEvents
      rw [List.foldl_append]
      rfl
    have hstep : stepEvent cfg
        (runEvents cfg initCState (List.replicate n (MEvent.row raw)))
        (MEvent.row raw) =
        handleParsedRowC cfg
          (runEvents cfg initCState (List.replicate n (MEvent.row raw)))
          raw := by
      unfold stepEvent
      rw [iha, ihq]
      rfl
    rw [hsplit, hstep]
    unfold handleParsedRowC
    rw [if_neg hne, hin]
    simp only [Bool.not_true, Bool.false_eq_true, if_false]
    rw [List.length_cons, ihlen]
    by_cases hfull : BATCH_SIZE ≤ n % BATCH_SIZE + 1
    · have h4999 : n % BATCH_SIZE = BATCH_SIZE - 1 := by
        have := Nat.mod_lt n (show 0 < BATCH_SIZE from by decide)
        omega
      rw [if_pos hfull]
      unfold sendBatchC
      have hcne : ¬ ((mapRawEvent raw ::
          (runEvents cfg initCState
            (List.replicate n (MEvent.row raw))).currentBatchRev).isEmpty
          = true) := by simp
      rw [if_neg hcne]
      unfold uploadBatchStart CState.batchList
      rw [show ({ runEvents cfg initCState
          (List.replicate n (MEvent.row raw)) with
          currentBatchRev := mapRawEvent raw ::
            (runEvents cfg initCState
              (List.replicate n (MEvent.row raw))).currentBatchRev } :
          CState).quotaExceeded =
        (runEvents cfg initCState
          (List.replicate n (MEvent.row raw))).quotaExceeded from rfl, ihq]
      simp only [Bool.false_eq_true, if_false]
      have hbne : ((mapRawEvent raw ::
          (runEvents cfg initCState
            (List.replicate n (MEvent.row raw))).currentBatchRev).reverse.isEmpty
          && !false) = false := by simp
      rw [if_neg (by simp [hbne])]
      have hL : (mapRawEvent raw ::
          (runEvents cfg initCState
            (List.replicate n (MEvent.row raw))).currentBatchRev).reverse.length
          = BATCH_SIZE := by
        rw [List.length_reverse, List.length_cons, ihlen]
        unfold BATCH_SIZE at h4999 ⊢
        omega
      have hdiv : (n + 1) / BATCH_SIZE = n / BATCH_SIZE + 1 := by
        unfold BATCH_SIZE at h4999 ⊢
        omega
      refine ⟨iha, rfl, ihp, ihc, ?_, ?_, ?_, ?_⟩
      · show (0 : Nat) = (n + 1) % BATCH_SIZE
        unfold BATCH_SIZE at h4999 ⊢
        omega
      · show ((runEvents cfg initCState
            (List.replicate n (MEvent.row raw))).pending ++
            [((mapRawEvent raw ::
              (runEvents cfg initCState
                (List.replicate n (MEvent.row raw))).currentBatchRev).reverse,
              false)]).map sizeFlag =
          List.replicate ((n + 1) / BATCH_SIZE) (BATCH_SIZE, false)
        rw [List.map_append, ihpend, List.map_cons, List.map_nil,
          show sizeFlag ((mapRawEvent raw ::
            (runEvents cfg initCState
              (List.replicate n (MEvent.row raw))).currentBatchRev).reverse,
            false) = ((mapRawEvent raw ::
            (runEvents cfg initCState
              (List.replicate n (MEvent.row raw))).currentBatchRev).reverse.length,
            false) from rfl, hL, hdiv, List.replicate_succ']
      · show ((runEvents cfg initCState
            (List.replicate n (MEvent.row raw))).sent ++
            [((mapRawEvent raw ::
              (runEvents cfg initCState
                (List.replicate n (MEvent.row raw))).currentBatchRev).reverse,
              false)]).map sizeFlag =
          List.replicate ((n + 1) / BATCH_SIZE) (BATCH_SIZE, false)
        rw [List.map_append, ihsent, List.map_cons, List.map_nil,
          show sizeFlag ((mapRawEvent raw ::
            (runEvents cfg initCState
              (List.replicate n (MEvent.row raw))).currentBatchRev).reverse,
            false) = ((mapRawEvent raw ::
            (runEvents cfg initCState
              (List.replicate n (MEvent.row raw))).currentBatchRev).reverse.length,
            false) from rfl, hL, hdiv, List.replicate_succ']
      · show true = decide (BATCH_SIZE ≤ n + 1)
        have : BATCH_SIZE ≤ n + 1 := by
          unfold BATCH_SIZE at h4999 ⊢
          omega
        simp [this]
    · rw [if_neg hfull]
      refine ⟨iha, ihq, ihp, ihc, ?_, ?_, ?_, ?_⟩
      · show (runEvents cfg initCState
            (List.replicate n (MEvent.row raw))).currentBatchRev.length + 1
            = (n + 1) % BATCH_SIZE
        rw [ihlen]
        unfold BATCH_SIZE at hfull ⊢
        omega
      · show (runEvents cfg initCState
            (List.replicate n (MEvent.row raw))).pending.map sizeFlag =
          List.replicate ((n + 1) / BATCH_SIZE) (BATCH_SIZE, false)
        rw [ihpend]
        have : (n + 1) / BATCH_SIZE = n / BATCH_SIZE := by
          unfold BATCH_SIZE at hfull ⊢
          omega
        rw [this]
      · show (runEvents cfg initCState
            (List.replicate n (MEvent.row raw))).sent.map sizeFlag =
          List.replicate ((n + 1) / BATCH_SIZE) (BATCH_SIZE, false)
        rw [ihsent]
        have : (n + 1) / BATCH_SIZE = n / BATCH_SIZE := by
          unfold BATCH_SIZE at hfull ⊢
          omega
        rw [this]
      · show (runEvents cfg initCState
            (List.replicate n (MEvent.row raw))).uploadInProgress =
          decide (BATCH_SIZE ≤ n + 1)
        rw [ihup]
        have : (BATCH_SIZE ≤ n) ↔ (BATCH_SIZE ≤ n + 1) := by
          unfold BATCH_SIZE at hfull ⊢
          omega
        exact decide_eq_decide.mpr this

/-! ## C1: two uploads in flight at once -/

/-- C1: the coordinator does NOT serialize uploads.  Two consecutive full
batches (10000 accepted rows) parsed before any server response arrives
leave two upload requests pending simultaneously: `uploadBatch` is invoked
without awaiting the previous fetch and checks only `quotaExceeded`, never
`uploadInProgress`. -/
theorem c1_two_uploads_in_flight :
    (runEvents cfgSample initCState
        (List.replicate 10000 (MEvent.row rowSample))).pending.map sizeFlag =
      [(5000, false), (5000, false)] ∧
    (runEvents cfgSample initCState
        (List.replicate 10000 (MEvent.row rowSample))).pending.length = 2 := by
  have h := run_rows_spec cfgSample rowSample (by decide) 10000
  have hp := h.2.2.2.2.2.1
  constructor
  · rw [hp]
    decide
  · have := congrArg List.length hp
    rw [List.length_map, List.length_replicate] at this
    rw [this]
    decide

/-! ## C8: batch sizes for 12001 accepted rows -/

/-- `sendBatch` on a nonempty accumulated batch (quota not exceeded):
clear the batch and start its upload. -/
theorem sendBatchC_flush (st : CState) (isLast : Bool)
    (hne : st.currentBatchRev.isEmpty = false)
    (hq : st.quotaExceeded = false) :
    sendBatchC st isLast =
      { st with
          currentBatchRev := [],
          uploadInProgress := true,
          pending := st.pending ++ [(st.currentBatchRev.reverse, isLast)],
          sent := st.sent ++ [(st.currentBatchRev.reverse, isLast)] } := by
  have hre : st.currentBatchRev.reverse.isEmpty = false := by
    cases hc : st.currentBatchRev with
    | nil => rw [hc] at hne; cases hne
    | cons a l => simp [hc]
  unfold sendBatchC
  rw [hne]
  simp only [Bool.false_eq_true, if_false]
  unfold uploadBatchStart CState.batchList
  rw [show ({ st with currentBatchRev := [] } : CState).quotaExceeded =
    st.quotaExceeded from rfl, hq]
  simp only [Bool.false_eq_true, if_false]
  rw [hre]
  simp only [Bool.false_and, Bool.false_eq_true, if_false]

/-- End-of-input on an active coordinator holding a nonempty batch: the
`complete` callback flushes exactly one more upload request, flagged as the
last batch. -/
theorem parse_done_flush (cfg : FilterCfg) (st : CState)
    (ha : st.aborted = false) (hq : st.quotaExceeded = false)
    (hne : st.currentBatchRev.isEmpty = false) :
    (stepEvent cfg st MEvent.parseDone).sent =
      st.sent ++ [(st.currentBatchRev.reverse, true)] := by
  unfold stepEvent
  rw [if_neg (show ¬ (st.aborted = true) from by
    rw [ha]; exact Bool.false_ne_true)]
  rw [sendBatchC_flush { st with parsingComplete := true } true hne hq]
  unfold parseDoneFollowup
  simp

/-- C8: 12001 accepted rows followed by end-of-input produce exactly three
upload requests of sizes 5000, 5000, 2001 in that order, and only the final
one carries `isLastBatch = true`. -/
theorem c8_batching (cfg : FilterCfg) (raw : RawRecord)
    (hacc : rowAccepted cfg raw = true) :
    (runEvents cfg initCState
        (List.replicate 12001 (MEvent.row raw) ++
          [MEvent.parseDone])).sent.map sizeFlag =
      [(5000, false), (5000, false), (2001, true)] := by
  obtain ⟨iha, ihq, ihp, ihc, ihlen, ihpend, ihsent, ihup⟩ :=
    run_rows_spec cfg raw hacc 12001
  have hmod : (12001 : Nat) % BATCH_SIZE = 2001 := by decide
  have hdiv : (12001 : Nat) / BATCH_SIZE = 2 := by decide
  rw [hmod] at ihlen
  rw [hdiv] at ihsent
  have hie : (runEvents cfg initCState
      (List.replicate 12001 (MEvent.row raw))).currentBatchRev.isEmpty =
      false := by
    cases hc : (runEvents cfg initCState
        (List.replicate 12001 (MEvent.row raw))).currentBatchRev with
    | nil =>
      rw [hc] at ihlen
      exact absurd ihlen (by decide)
    | cons a l => rfl
  have hflush := parse_done_flush cfg
    (runEvents cfg initCState (List.replicate 12001 (MEvent.row raw)))
    iha ihq hie
  rw [runEvents_append, runEvents_single, hflush]
  rw [List.map_append, List.map_cons, List.map_nil]
  rw [show ∀ (l : List UmamiEvent) (b : Bool), sizeFlag (l, b) =
    (l.length, b) from fun l b => rfl]
  rw [List.length_reverse, ihlen, ihsent]
  decide

/-- Witness for C8: a concrete accepted row. -/
theorem c8_witness :
    (runEvents cfgSample initCState
        (List.replicate 12001 (MEvent.row rowSample) ++
          [MEvent.parseDone])).sent.map sizeFlag =
      [(5000, false), (5000, false), (2001, true)] :=
  c8_batching cfgSample rowSample (by decide)

/-! ## C2: the empty final batch is emitted but rejected by the server -/

/-- A freshly created pending session with no platform yet. -/
def sessPending : ImportSession := ⟨uuidSample, 1, .pending, none, 0, none⟩

def stPending : ServerState :=
  ⟨[sessPending], [(1, "org1")], [("org1", [⟨2024, 6, 10⟩])], []⟩

/-- C2 (evaluation at the failing input): on a file with zero data rows the
client does emit exactly one batch — empty, flagged `isLastBatch = true` —
but the server's request schema requires at least one event, so that batch
is rejected with a 400 validation error, the session row is untouched, and
the import never reaches `completed`. -/
theorem c2_empty_file_final_batch_rejected :
    (runEvents cfgSample initCState [MEvent.parseDone]).sent =
      [([], true)] ∧
    batchImportEvents stPending ⟨"1", uuidSample, [], some true⟩ true none =
      (.err 400 "Validation error", stPending) ∧
    (getImportById stPending uuidSample).map ImportSession.status =
      some ImportStatusV.pending := by
  decide

end Rybbit
